import Mathlib

/-!
# Verification of the datasheets data-marshaling layer

Shallow embedding of the pure computational core of the `datasheets`
library (`src/datasheets/helpers.py`, `src/datasheets/tab.py`), together
with theorems checking the natural-language specification against it.

Python values that can appear in a spreadsheet cell or in an upload
payload are modelled by the inductive type `PyVal`; Python exceptions by
`PyErr`; fallible Python code returns `Except PyErr _`.
-/

namespace Datasheets

/-- A Python runtime value as it occurs in this library: `None`, `bool`,
`int`, `float` (exact rationals; the separate `nan` constructor models
`float('nan')`), `str`, and the `datetime.date` / `datetime.time` /
`datetime.datetime` objects produced by cell decoding. -/
inductive PyVal where
  | none
  | bool (b : Bool)
  | int (n : Int)
  | float (q : Rat)
  | nan
  | str (s : String)
  | date (y m d : Nat)
  | time (h mi s : Nat)
  | datetime (y m d h mi s : Nat)
deriving DecidableEq, Repr

/-- The Python exceptions that the embedded code can raise. -/
inductive PyErr where
  | valueError (msg : String)
  | typeError (msg : String)
  | keyError (msg : String)
  | indexError (msg : String)
  | overflowError (msg : String)
deriving DecidableEq, Repr

/-- Numeric view used by Python `==`: `bool`, `int` and `float` compare by
numeric value (`True == 1 == 1.0`); `nan` is excluded because
`float('nan')` is not equal to anything, itself included. -/
def pyNum? : PyVal → Option Rat
  | .bool b => some (if b then 1 else 0)
  | .int n => some (n : Rat)
  | .float q => some q
  | _ => Option.none

/-- Python `==` on the values of this model: cross-type numeric equality,
everything else structural within a constructor, `nan` equal to nothing. -/
def pyEq (a b : PyVal) : Bool :=
  match pyNum? a, pyNum? b with
  | some x, some y => x == y
  | _, _ =>
    match a, b with
    | .none, .none => true
    | .str s, .str t => s == t
    | .date y m d, .date y2 m2 d2 => y == y2 && m == m2 && d == d2
    | .time h mi s, .time h2 mi2 s2 => h == h2 && mi == mi2 && s == s2
    | .datetime y m d h mi s, .datetime y2 m2 d2 h2 mi2 s2 =>
        y == y2 && m == m2 && d == d2 && h == h2 && mi == mi2 && s == s2
    | _, _ => false

/-- Python truthiness (`if cell_value:`): `None`, `False`, numeric zero and
the empty string are falsy; every other value of this model is truthy. -/
def pyTruthy : PyVal → Bool
  | .none => false
  | .bool b => b
  | .int n => n != 0
  | .float q => q != 0
  | .nan => true
  | .str s => !s.isEmpty
  | .date _ _ _ => true
  | .time _ _ _ => true
  | .datetime _ _ _ _ _ _ => true

/-! ## Proleptic Gregorian calendar (the behaviour of `datetime.date`)

`datetime.date` addition with a `timedelta` works through `toordinal` /
`fromordinal` (day 1 = 0001-01-01).  The functions below reproduce that
arithmetic; `_ord2ymd` recovers the month by counting the months whose
cumulative day offset fits, which agrees with CPython's search. -/

def isLeapYear (y : Nat) : Bool := y % 4 == 0 && (y % 100 != 0 || y % 400 == 0)

def daysInMonth (y m : Nat) : Nat :=
  if m = 2 then (if isLeapYear y then 29 else 28)
  else if m = 4 ∨ m = 6 ∨ m = 9 ∨ m = 11 then 30
  else 31

/-- Days in year `y` strictly before month `m` (1-based). -/
def daysBeforeMonth (y m : Nat) : Nat :=
  (List.range (m - 1)).foldl (fun acc i => acc + daysInMonth y (i + 1)) 0

/-- Days before January 1st of year `y` (as in CPython `_days_before_year`). -/
def daysBeforeYear (y : Nat) : Nat :=
  let p := y - 1
  p * 365 + p / 4 - p / 100 + p / 400

/-- The behaviour of `datetime.date(y, m, d).toordinal()`. -/
def toordinal (y m d : Nat) : Nat := daysBeforeYear y + daysBeforeMonth y m + d

/-- Greatest representable ordinal, `datetime.date.max.toordinal()` = 9999-12-31. -/
def maxOrdinal : Nat := toordinal 9999 12 31

/-- The behaviour of `datetime.date.fromordinal` (defined for `1 ≤ n ≤ maxOrdinal`). -/
def _ord2ymd (n : Nat) : Nat × Nat × Nat :=
  let n0 := n - 1
  let n400 := n0 / 146097
  let r400 := n0 % 146097
  let n100 := r400 / 36524
  let r100 := r400 % 36524
  let n4 := r100 / 1461
  let r4 := r100 % 1461
  let n1 := r4 / 365
  let r1 := r4 % 365
  let year := n400 * 400 + n100 * 100 + n4 * 4 + n1 + 1
  if n1 = 4 ∨ n100 = 4 then
    (year - 1, 12, 31)
  else
    let m := ((List.range 12).filter (fun i => daysBeforeMonth year (i + 1) ≤ r1)).length
    (year, m, r1 - daysBeforeMonth year m + 1)

/-! ## Rendering (Python `str()`)

`str()` on the values this library uploads.  Dates, times and datetimes
render in their canonical ISO forms, exactly as CPython prints them.
Floats that have a finite decimal expansion are rendered exactly; other
floats fall back to a fraction rendering (no claim exercises them, and
binary floats reaching this code always have a finite decimal form). -/

def padNum (width n : Nat) : String :=
  let s := toString n
  String.mk (List.replicate (width - s.length) '0') ++ s

/-- Python `str(datetime.date(y, m, d))`, i.e. `YYYY-MM-DD`. -/
def dateStr (y m d : Nat) : String :=
  padNum 4 y ++ "-" ++ padNum 2 m ++ "-" ++ padNum 2 d

/-- Python `str(datetime.time(h, mi, s))`, i.e. `HH:MM:SS`. -/
def timeStr (h mi s : Nat) : String :=
  padNum 2 h ++ ":" ++ padNum 2 mi ++ ":" ++ padNum 2 s

def floatStr (q : Rat) : String :=
  let sign := if q < 0 then "-" else ""
  let aq : Rat := |q|
  match (List.range 18).find? (fun k => (aq * (10 : Rat) ^ k).den == 1) with
  | some k =>
      let scaled := (aq * (10 : Rat) ^ k).num.toNat
      let digits := padNum (k + 1) scaled
      let cut := digits.length - k
      let ip := String.mk (digits.toList.take cut)
      let fp := String.mk (digits.toList.drop cut)
      sign ++ ip ++ "." ++ (if fp.isEmpty then "0" else fp)
  | Option.none => sign ++ toString aq.num ++ "/" ++ toString aq.den

/-- Python `str()` of a model value. -/
def pyStrRender : PyVal → String
  | .none => "None"
  | .bool b => if b then "True" else "False"
  | .int n => toString n
  | .float q => floatStr q
  | .nan => "nan"
  | .str s => s
  | .date y m d => dateStr y m d
  | .time h mi s => timeStr h mi s
  | .datetime y m d h mi s => dateStr y m d ++ " " ++ timeStr h mi s

/-- Python `str(type(v))` for a model value, as interpolated into error messages. -/
def pyTypeName : PyVal → String
  | .none => "<class 'NoneType'>"
  | .bool _ => "<class 'bool'>"
  | .int _ => "<class 'int'>"
  | .float _ => "<class 'float'>"
  | .nan => "<class 'float'>"
  | .str _ => "<class 'str'>"
  | .date _ _ _ => "<class 'datetime.date'>"
  | .time _ _ _ => "<class 'datetime.time'>"
  | .datetime _ _ _ _ _ _ => "<class 'datetime.datetime'>"

/-! ## Python `float()` string parsing

`float(s)` accepts optional surrounding whitespace, an optional sign, a
decimal mantissa (`digits`, `digits.digits?`, or `.digits`) and an
optional exponent.  (The special spellings `inf`/`nan` and digit-group
underscores that CPython also accepts are omitted; no claim involves
them.)  An unparseable string is a `ValueError`. -/

def digitsToNat (ds : List Char) : Nat :=
  ds.foldl (fun a c => a * 10 + (c.toNat - 48)) 0

def parseFloat (s : String) : Option Rat :=
  let cs := s.toList.dropWhile Char.isWhitespace
  let (sgn, cs) :=
    match cs with
    | '+' :: rest => ((1 : Rat), rest)
    | '-' :: rest => ((-1 : Rat), rest)
    | rest => ((1 : Rat), rest)
  let ip := cs.takeWhile Char.isDigit
  let cs := cs.dropWhile Char.isDigit
  let (fp, cs) :=
    match cs with
    | '.' :: rest => (rest.takeWhile Char.isDigit, rest.dropWhile Char.isDigit)
    | rest => ([], rest)
  if ip.isEmpty && fp.isEmpty then Option.none
  else
    let mant : Rat := (digitsToNat (ip ++ fp) : Rat) / (10 : Rat) ^ fp.length
    let (expo, cs) :=
      match cs with
      | 'e' :: rest => (some rest, rest)
      | 'E' :: rest => (some rest, rest)
      | rest => (Option.none, rest)
    match expo with
    | some rest =>
        let (esgn, rest) :=
          match rest with
          | '+' :: r => ((1 : Int), r)
          | '-' :: r => ((-1 : Int), r)
          | r => ((1 : Int), r)
        let ed := rest.takeWhile Char.isDigit
        let rest := rest.dropWhile Char.isDigit
        if ed.isEmpty then Option.none
        else if (rest.dropWhile Char.isWhitespace).isEmpty then
          some (sgn * mant * (10 : Rat) ^ (esgn * (digitsToNat ed : Int)))
        else Option.none
    | Option.none =>
        if (cs.dropWhile Char.isWhitespace).isEmpty then some (sgn * mant)
        else Option.none

/-! ## The conversion functions stored in `_TYPE_CONVERSIONS`

Each entry of the Python dict is a callable; calling one either returns a
converted value, raises `ValueError` (a value-parse failure) or raises
`TypeError` (a type-level mismatch).  They are embedded as total
functions into `Except PyErr PyVal`. -/

/-- Python builtin `float` applied to a cell value. -/
def py_float : PyVal → Except PyErr PyVal
  | .float q => .ok (.float q)
  | .nan => .ok .nan
  | .int n => .ok (.float (n : Rat))
  | .bool b => .ok (.float (if b then 1 else 0))
  | .str s =>
      match parseFloat s with
      | some q => .ok (.float q)
      | Option.none => .error (.valueError ("could not convert string to float: '" ++ s ++ "'"))
  | v => .error (.typeError ("float() argument must be a string or a number, not '" ++ pyTypeName v ++ "'"))

/-- Python builtin `str` applied to a cell value (never raises). -/
def py_str (v : PyVal) : Except PyErr PyVal := .ok (.str (pyStrRender v))

/-- Python builtin `bool` applied to a cell value (never raises). -/
def py_bool (v : PyVal) : Except PyErr PyVal := .ok (.bool (pyTruthy v))

/-- The conversion `lambda x: dt.date(1899, 12, 30) + dt.timedelta(days=x)`.

`timedelta(days=x)` keeps `floor x` whole days; adding it to a date goes
through `toordinal`/`fromordinal`.  A non-numeric argument is a
`TypeError`; `days=nan` is a `ValueError`; a result outside the
`datetime.date` range is an `OverflowError`. -/
def conv_date (v : PyVal) : Except PyErr PyVal :=
  let fromDays (days : Int) : Except PyErr PyVal :=
    let o : Int := (toordinal 1899 12 30 : Int) + days
    if o < 1 ∨ o > (maxOrdinal : Int) then .error (.overflowError "date value out of range")
    else
      let (y, m, d) := _ord2ymd o.toNat
      .ok (.date y m d)
  match v with
  | .float q => fromDays (Rat.floor q)
  | .int n => fromDays n
  | .bool b => fromDays (if b then 1 else 0)
  | .nan => .error (.valueError "cannot convert float NaN to integer")
  | v => .error (.typeError ("unsupported type for timedelta days component: " ++ pyTypeName v))

/-- The conversion `lambda x: (dt.datetime.min + dt.timedelta(days=x)).time()`.

Modelled at second granularity (the claims never inspect microseconds).
`datetime.min` is 0001-01-01 00:00, so a negative duration overflows. -/
def conv_time (v : PyVal) : Except PyErr PyVal :=
  let fromSecs (t : Int) : Except PyErr PyVal :=
    if t < 0 ∨ t ≥ (maxOrdinal : Int) * 86400 then .error (.overflowError "date value out of range")
    else
      let sec := t.toNat % 86400
      .ok (.time (sec / 3600) (sec % 3600 / 60) (sec % 60))
  match v with
  | .float q => fromSecs (Rat.floor (q * 86400))
  | .int n => fromSecs (n * 86400)
  | .bool b => fromSecs (if b then 86400 else 0)
  | .nan => .error (.valueError "cannot convert float NaN to integer")
  | v => .error (.typeError ("unsupported type for timedelta days component: " ++ pyTypeName v))

/-- The conversion `lambda x: dt.datetime(1899, 12, 30) + dt.timedelta(days=x)`.

Modelled at second granularity, like `conv_time`. -/
def conv_datetime (v : PyVal) : Except PyErr PyVal :=
  let fromSecs (t : Int) : Except PyErr PyVal :=
    let base : Int := ((toordinal 1899 12 30 : Int) - 1) * 86400
    let tot := base + t
    if tot < 0 ∨ tot ≥ (maxOrdinal : Int) * 86400 then .error (.overflowError "date value out of range")
    else
      let (y, m, d) := _ord2ymd (tot.toNat / 86400 + 1)
      let sec := tot.toNat % 86400
      .ok (.datetime y m d (sec / 3600) (sec % 3600 / 60) (sec % 60))
  match v with
  | .float q => fromSecs (Rat.floor (q * 86400))
  | .int n => fromSecs (n * 86400)
  | .bool b => fromSecs (if b then 86400 else 0)
  | .nan => .error (.valueError "cannot convert float NaN to integer")
  | v => .error (.typeError ("unsupported type for timedelta days component: " ++ pyTypeName v))

/-- The module-level conversion table of `datasheets/helpers.py`.  The dict
is keyed by the display-format strings and the coarse-kind strings, plus
the literal key `None` (modelled as `Option.none`); lookup of any other
key is a `KeyError`, hence the `Option` result. -/
def _TYPE_CONVERSIONS : Option String → Option (PyVal → Except PyErr PyVal)
  | some "numberValue" => some py_float
  | some "stringValue" => some py_str
  | some "boolValue" => some py_bool
  | some "NUMBER_FORMAT_TYPE_UNSPECIFIED" => some (fun x => .ok x)
  | some "TEXT" => some py_str
  | some "NUMBER" => some py_float
  | some "PERCENT" => some py_float
  | some "CURRENCY" => some py_float
  | some "DATE" => some conv_date
  | some "TIME" => some conv_time
  | some "DATE_TIME" => some conv_datetime
  | some "SCIENTIFIC" => some py_float
  | Option.none => some (fun x => .ok x)
  | some _ => Option.none

/-! ## Wire-format cells and `Tab._process_rows` -/

/-- A cell's `effectiveValue`: a one-entry mapping whose key is the coarse
kind tag (`numberValue` / `stringValue` / `boolValue`). -/
inductive EffVal where
  | numberVal (q : Rat)
  | strVal (s : String)
  | boolVal (b : Bool)
deriving DecidableEq, Repr

/-- A wire cell as `_process_rows` reads it: an optional `effectiveValue`
and the optional `effectiveFormat.numberFormat.type` tag. -/
structure Cell where
  value : Option EffVal
  numberFormat : Option String
deriving DecidableEq, Repr

/-- Python `next(iter(value.items()))` on `cell.get('effectiveValue', {None: None})`:
the coarse kind key (the dict key `None` when the cell is empty) and the
raw value. -/
def baseOf : Option EffVal → Option String × PyVal
  | Option.none => (Option.none, PyVal.none)
  | some (.numberVal q) => (some "numberValue", .float q)
  | some (.strVal s) => (some "stringValue", .str s)
  | some (.boolVal b) => (some "boolValue", .bool b)

/-- The raw value extracted from a cell. -/
def rawValue (c : Cell) : PyVal := (baseOf c.value).2

/-- The key under which the conversion is looked up: the display-format
tag when `numberFormat` is present (truthy), else the coarse kind tag. -/
def selectedFormat (c : Cell) : Option String :=
  match c.numberFormat with
  | some t => some t
  | Option.none => (baseOf c.value).1

/-- Python `'\x7b\x7d'.format(x)` on the selected format (a `str`, or `None`). -/
def renderFmt : Option String → String
  | some t => t
  | Option.none => "None"

/-- The `TypeError` message raised by `_process_rows` on a type-level
mismatch; it interpolates the offending value, the selected cell format
and the value's runtime type. -/
def typeMismatchMsg (value : PyVal) (cell_format : Option String) : String :=
  "Mismatch exists in expected and actual data types for cell with value '"
    ++ pyStrRender value ++ "'. Cell format is '" ++ renderFmt cell_format
    ++ "' but cell value type is '" ++ pyTypeName value
    ++ "'. To correct this, in Google Sheets set the appropriate cell format or set it to Automatic"

/-- Decoding of one cell inside `Tab._process_rows`: select the conversion
(display format over coarse kind), convert only truthy raw values,
swallow `ValueError` (keeping the raw value), turn `TypeError` into the
descriptive mismatch error. -/
def decodeCell (c : Cell) : Except PyErr PyVal :=
  let cell_value := rawValue c
  match _TYPE_CONVERSIONS (selectedFormat c) with
  | Option.none => .error (.keyError (renderFmt (selectedFormat c)))
  | some formatting_fn =>
    if pyTruthy cell_value then
      match formatting_fn cell_value with
      | .ok v => .ok v
      | .error (.valueError _) => .ok cell_value
      | .error (.typeError _) => .error (.typeError (typeMismatchMsg cell_value (selectedFormat c)))
      | .error e => .error e
    else .ok cell_value

/-- Sequential effectful map: the embedding of a Python `for` loop that
appends results and lets exceptions propagate at the first failure. -/
def mapE (f : α → Except PyErr β) : List α → Except PyErr (List β)
  | [] => .ok []
  | a :: l => do
      let b ← f a
      let bs ← mapE f l
      .ok (b :: bs)

/-- The loop of `Tab._process_rows` on the `rowData` block: one list of decoded values
per row. -/
def _process_rows (raw_rows : List (List Cell)) : Except PyErr (List (List PyVal)) :=
  mapE (fun row => mapE decodeCell row) raw_rows

/-! ## Column-label codec -/

def ASCII_CHAR_OFFSET : Nat := 64

def NUMBER_OF_LETTERS_IN_ALPHABET : Nat := 26

/-- The function `helpers._get_column_letter`: repeated `divmod` by 26 with the
remainder offset into the alphabet (note: the source has no special case
for remainder 0). -/
def _get_column_letter (col_idx : Nat) : String :=
  let quotient := col_idx / NUMBER_OF_LETTERS_IN_ALPHABET
  let remainder := col_idx % NUMBER_OF_LETTERS_IN_ALPHABET
  let suffix := String.mk [Char.ofNat (remainder + ASCII_CHAR_OFFSET)]
  if h : quotient = 0 then suffix
  else _get_column_letter quotient ++ suffix
termination_by col_idx
decreasing_by
  show col_idx / NUMBER_OF_LETTERS_IN_ALPHABET < col_idx
  refine Nat.div_lt_self ?_ (by norm_num [NUMBER_OF_LETTERS_IN_ALPHABET])
  rcases Nat.eq_zero_or_pos col_idx with h0 | h0
  · subst h0
    exact absurd (Nat.zero_div _) h
  · exact h0

/-- The function `helpers.convert_cell_index_to_label` (on integer arguments). -/
def convert_cell_index_to_label (row col : Int) : Except String String :=
  if row < 1 ∨ col < 1 then .error "Row and column values must be >= 1"
  else .ok (_get_column_letter col.toNat ++ toString row)

/-- One step of the accumulation `col = col * 26 + (ord(c) - 64)` over the
upper-cased letters; upper-casing an ASCII letter before taking `ord` is
fused into one function. -/
def letterVal (c : Char) : Nat :=
  (if c.toNat ≥ 97 then c.toNat - 32 else c.toNat) - ASCII_CHAR_OFFSET

/-- Membership in the regex class `[A-Za-z]`, stated on code points. -/
def isAsciiLetter (c : Char) : Bool :=
  (65 ≤ c.toNat && c.toNat ≤ 90) || (97 ≤ c.toNat && c.toNat ≤ 122)

/-- Membership in the regex class `\d` (ASCII digits, stated on code
points; the labels this code handles are ASCII). -/
def isAsciiDigit (c : Char) : Bool := 48 ≤ c.toNat && c.toNat ≤ 57

/-- The function `helpers.convert_cell_label_to_index`.  The regex
`([A-Za-z]+)([1-9]\d*)` is applied with `re.match`, i.e. anchored at the
start of the string only: group 1 is the maximal leading letter run,
group 2 the maximal digit run that follows (whose first digit must be
non-zero); anything after group 2 is ignored. -/
def convert_cell_label_to_index (label : PyVal) : Except String (Int × Nat) :=
  match label with
  | .str s =>
      let letters := s.toList.takeWhile isAsciiLetter
      let rest := s.toList.dropWhile isAsciiLetter
      let digits := rest.takeWhile isAsciiDigit
      if letters.isEmpty || digits.isEmpty || digits.headD '0' == '0' then
        .error "Unable to parse user-provided label"
      else
        let col := letters.foldl (fun col c => col * NUMBER_OF_LETTERS_IN_ALPHABET + letterVal c) 0
        .ok ((digitsToNat digits : Int), col)
  | _ => .error "Input must be a string"

/-- ASCII upper-casing of one character, as Python `str.upper` acts on the
ASCII range (the only characters the label pattern can accept). -/
def upperChar (c : Char) : Char :=
  if 97 ≤ c.toNat ∧ c.toNat ≤ 122 then Char.ofNat (c.toNat - 32) else c

/-- ASCII upper-casing of a string, character by character. -/
def upperStr (s : String) : String := String.mk (s.toList.map upperChar)

/-! ## Row normalizer -/

/-- The predicate `is_not_empty` from `_find_max_nonempty_row`:
`row.count(None) != len(row)` (Python `count` compares with `==`). -/
def is_not_empty (row : List PyVal) : Bool :=
  row.countP (fun v => pyEq v PyVal.none) != row.length

/-- The function `helpers._find_max_nonempty_row`: the largest index whose row is not
all `None`s, or `None` when every row is empty. -/
def _find_max_nonempty_row (data : List (List PyVal)) : Option Nat :=
  let nonempty_rows := data.map is_not_empty
  if nonempty_rows.count true ≠ 0 then
    (nonempty_rows.enum.filterMap fun p => if p.2 then some p.1 else Option.none).max?
  else
    Option.none

/-- The function `helpers._remove_trailing_nones`: pop trailing `None`s (identity
comparison, which on this model coincides with being the `none` value). -/
def _remove_trailing_nones (array : List PyVal) : List PyVal :=
  (array.reverse.dropWhile (· == PyVal.none)).reverse

/-- The function `helpers._resize_row`: truncate to `new_len`, or right-pad with `None`s. -/
def _resize_row (array : List PyVal) (new_len : Nat) : List PyVal :=
  if array.length > new_len then array.take new_len
  else array ++ List.replicate (new_len - array.length) PyVal.none

/-! ## `Tab.fetch_data` -/

/-- The output format parameter of `fetch_data` (an unrecognized string
raises before any data is fetched, so only the three valid values are
modelled). -/
inductive Fmt where
  | df
  | dict
  | list
deriving DecidableEq, Repr

/-- The three result shapes of `fetch_data`: a `pandas.DataFrame` (kept as
its column labels plus rows), a list of `OrderedDict`s (kept as ordered
key-value pair lists), or the raw `(headers, rows)` pair. -/
inductive FetchResult where
  | df (columns : List PyVal) (rows : List (List PyVal))
  | dicts (rows : List (List (PyVal × PyVal)))
  | listPair (headers : List PyVal) (rows : List (List PyVal))
deriving DecidableEq, Repr

/-- Insertion into an `OrderedDict`: an existing key (Python `==`) is
updated in place, a new key is appended. -/
def odInsert (d : List (PyVal × PyVal)) (k v : PyVal) : List (PyVal × PyVal) :=
  if d.any (fun p => pyEq p.1 k) then d.map (fun p => if pyEq p.1 k then (k, v) else p)
  else d ++ [(k, v)]

/-- Python `OrderedDict(pairs)`: left-to-right insertion. -/
def orderedDictOfPairs (l : List (PyVal × PyVal)) : List (PyVal × PyVal) :=
  l.foldl (fun d p => odInsert d p.1 p.2) []

/-- The rows retained and stripped by `fetch_data` once the last populated
row is known: `processed_rows[:max_idx+1]`, then
`_remove_trailing_nones` on each row. -/
def normalizeRows (processed : List (List PyVal)) (max_idx : Nat) : List (List PyVal) :=
  (processed.take (max_idx + 1)).map _remove_trailing_nones

/-- The header extraction and row resizing of `fetch_data`: with headers,
pop the first row and resize the rest to its length; without, synthesize
`range(max_width)` headers over the widest row. -/
def fetchCore (stripped : List (List PyVal)) : Bool → List PyVal × List (List PyVal)
  | true =>
    match stripped with
    | [] => ([], [])
    | h :: t => (h, t.map (fun row => _resize_row row h.length))
  | false =>
    let max_width := (stripped.map List.length).foldl Nat.max 0
    ((List.range max_width).map (fun i => PyVal.int (Int.ofNat i)),
     stripped.map (fun row => _resize_row row max_width))

/-- The pure tail of `Tab.fetch_data`, from the processed rows to the
requested shape.  (`pd.DataFrame([])` is the DataFrame with no columns
and no rows.) -/
def fetchFromProcessed (processed : List (List PyVal)) (headers : Bool) (fmt : Fmt) :
    FetchResult :=
  match _find_max_nonempty_row processed with
  | Option.none =>
      match fmt with
      | .df => .df [] []
      | .dict => .dicts []
      | .list => .listPair [] []
  | some max_idx =>
      let (header_names, rows) := fetchCore (normalizeRows processed max_idx) headers
      match fmt with
      | .df => .df header_names rows
      | .dict => .dicts (rows.map fun row => orderedDictOfPairs (header_names.zip row))
      | .list => .listPair header_names rows

/-- The method `Tab.fetch_data` given the raw wire rows: decode every cell with
`_process_rows`, then normalize and shape. -/
def fetch_data (raw_rows : List (List Cell)) (headers : Bool) (fmt : Fmt) :
    Except PyErr FetchResult := do
  let processed ← _process_rows raw_rows
  .ok (fetchFromProcessed processed headers fmt)

/-! ## Egest: `helpers._make_list_of_lists` and the DataFrame helpers -/

/-- The column labels of a modelled DataFrame: a flat index of labels, or
a `MultiIndex` of per-column tuples (all of one length). -/
inductive ColIndex where
  | flat (labels : List PyVal)
  | multi (tuples : List (List PyVal))
deriving DecidableEq, Repr

/-- A `pandas.DataFrame` as the egest path consumes it: column labels, row
index names (`PyVal.none` when unnamed), per-row index tuples (singleton
lists for a flat row index) and per-row values. -/
structure PyDataFrame where
  columns : ColIndex
  indexNames : List PyVal
  indexVals : List (List PyVal)
  rows : List (List PyVal)
deriving Repr

/-- Python `zip(*ls)` on uniform-length lists: the transpose, truncated to the
shortest member as Python's `zip` does. -/
def pyZipStar (ls : List (List PyVal)) : List (List PyVal) :=
  match ls.map List.length with
  | [] => []
  | x :: xs =>
      let k := xs.foldl Nat.min x
      (List.range k).map (fun i => ls.map (fun l => l.getD i PyVal.none))

/-- The function `helpers._process_df_index_names`: the index names, or synthesized
`index0`, `index1`, ... when the first name is falsy. -/
def _process_df_index_names (df : PyDataFrame) : List PyVal :=
  if pyTruthy (df.indexNames.headD PyVal.none) then df.indexNames
  else (List.range df.indexNames.length).map (fun i => .str ("index" ++ toString i))

/-- The function `helpers._process_df_headers`. -/
def _process_df_headers (df : PyDataFrame) (index : Bool) : List (List PyVal) :=
  let idx_names := _process_df_index_names df
  match df.columns with
  | .multi tuples =>
      let column_names := pyZipStar tuples
      if index then column_names.map (fun row => idx_names ++ row) else column_names
  | .flat labels =>
      if index then [idx_names ++ labels] else [labels]

/-- The function `helpers._process_df_values`: `itertuples` rows, with the index
entry (or entries, for a `MultiIndex`) prepended when requested. -/
def _process_df_values (df : PyDataFrame) (index : Bool) : List (List PyVal) :=
  if index then (df.indexVals.zip df.rows).map (fun p => p.1 ++ p.2) else df.rows

/-- An element of a top-level Python sequence handed to the egest path: a
mapping (`dict`/`OrderedDict`, kept with insertion order), a list, or
any other object. -/
inductive EgestDatum where
  | mapping (d : List (PyVal × PyVal))
  | listD (l : List PyVal)
  | scalar (v : PyVal)
deriving DecidableEq, Repr

/-- The runtime shapes `_make_list_of_lists` can receive: a DataFrame, a
sequence (`isList` distinguishes a `list` from other sequences such as
tuples), a bare mapping, or any other object. -/
inductive EgestData where
  | frame (df : PyDataFrame)
  | seq (isList : Bool) (items : List EgestDatum)
  | mappingData (d : List (PyVal × PyVal))
  | scalarData (v : PyVal)

/-- Python `row[key]` for a row of the second egest branch.  On a mapping this is
dict lookup (Python `==` on keys, `KeyError` when absent); on a list an
integer key indexes positionally; anything else is a `TypeError`. -/
def itemGetKey (it : EgestDatum) (k : PyVal) : Except PyErr PyVal :=
  match it with
  | .mapping m =>
      match m.find? (fun p => pyEq p.1 k) with
      | some p => .ok p.2
      | Option.none => .error (.keyError (pyStrRender k))
  | .listD l =>
      match k with
      | .int n =>
          if h : 0 ≤ n ∧ n.toNat < l.length then .ok (l.get ⟨n.toNat, h.2⟩)
          else if h2 : 0 ≤ n + l.length ∧ (n + l.length).toNat < l.length then
            .ok (l.get ⟨(n + l.length).toNat, h2.2⟩)
          else .error (.indexError "list index out of range")
      | .bool b =>
          let n := if b then 1 else 0
          if h : n < l.length then .ok (l.get ⟨n, h⟩)
          else .error (.indexError "list index out of range")
      | _ => .error (.typeError "list indices must be integers or slices, not str")
  | .scalar v => .error (.typeError ("'" ++ pyTypeName v ++ "' object is not subscriptable"))

/-- The `ValueError` message for an unsupported egest shape. -/
def shapeErrorMsg : String :=
  "Input data must be a pandas.DataFrame, a list of dicts, or a list of lists"

/-- The first mapping's keys, in insertion order (`list(data[0].keys())`). -/
def keysOf (m : List (PyVal × PyVal)) : List PyVal := m.map Prod.fst

/-- The function `helpers._make_list_of_lists`.  Branch order follows the source: a
DataFrame is handled first; any other sequence is probed at `data[0]`
(an `IndexError` when empty) and dispatched on that first element; a
list of lists passes through unchanged; everything else is the
descriptive `ValueError`.  Rows built by the mapping branch are Python
lists, hence the `EgestDatum.listD` wrapping; the list-of-lists branch
returns `data` itself. -/
def _make_list_of_lists (data : EgestData) (index : Bool) :
    Except PyErr (List (List PyVal) × List EgestDatum) :=
  match data with
  | .frame df => .ok (_process_df_headers df index, (_process_df_values df index).map .listD)
  | .seq isList items =>
      match items with
      | [] => .error (.indexError "list index out of range")
      | d0 :: _ =>
          match d0 with
          | .mapping m0 => do
              let values ← mapE (fun row => do
                let row_values ← mapE (fun key => itemGetKey row key) (keysOf m0)
                pure (EgestDatum.listD row_values)) items
              .ok ([keysOf m0], values)
          | .listD _ =>
              if isList then .ok ([], items) else .error (.valueError shapeErrorMsg)
          | .scalar _ => .error (.valueError shapeErrorMsg)
  | .mappingData _ => .error (.valueError shapeErrorMsg)
  | .scalarData _ => .error (.valueError shapeErrorMsg)

/-! ## `helpers._convert_nan_and_datelike_values` -/

/-- Make one item JSON serializable: `np.nan` becomes `None`, dates, times
and datetimes become their `str()` forms, all else passes through. -/
def convertItem : PyVal → PyVal
  | .nan => PyVal.none
  | .date y m d => .str (pyStrRender (.date y m d))
  | .time h mi s => .str (pyStrRender (.time h mi s))
  | .datetime y m d h mi s => .str (pyStrRender (.datetime y m d h mi s))
  | v => v

/-- The function `helpers._convert_nan_and_datelike_values`. -/
def _convert_nan_and_datelike_values (values : List (List PyVal)) : List (List PyVal) :=
  values.map (fun row => row.map convertItem)

/-! ## Auxiliary definitions used by theorem statements -/

/-- The serial-day number of a date, counted from the epoch 1899-12-30
(day 0), as the wire protocol transmits dates. -/
def serialOfDate (y m d : Nat) : Int :=
  (toordinal y m d : Int) - (toordinal 1899 12 30 : Int)

/-- Total dict lookup used to state egest results: the value stored under
the first key equal (Python `==`) to `k`. -/
def dictGetD (m : List (PyVal × PyVal)) (k : PyVal) : PyVal :=
  ((m.find? (fun p => pyEq p.1 k)).map Prod.snd).getD PyVal.none

/-! ## Helper lemmas -/

theorem nat_max?_eq_some_iff {a : Nat} {xs : List Nat} :
    xs.max? = some a ↔ a ∈ xs ∧ ∀ b ∈ xs, b ≤ a :=
  List.max?_eq_some_iff (fun a => le_refl a) (fun a b => max_choice a b)
    (fun _ _ _ => max_le_iff)

/-- Indices selected by `_find_max_nonempty_row`'s comprehension. -/
def nonemptyIdx (data : List (List PyVal)) : List Nat :=
  (data.map is_not_empty).enum.filterMap fun p => if p.2 then some p.1 else Option.none

theorem mem_nonemptyIdx {data : List (List PyVal)} {i : Nat} :
    i ∈ nonemptyIdx data ↔ ∃ row, data[i]? = some row ∧ is_not_empty row = true := by
  unfold nonemptyIdx
  rw [List.mem_filterMap]
  constructor
  · rintro ⟨⟨j, b⟩, hmem, hf⟩
    rw [List.mem_enum_iff_getElem?] at hmem
    by_cases hb : b = true
    · subst hb
      simp only [if_pos] at hf
      cases hf
      simp only [List.getElem?_map] at hmem
      rcases Option.map_eq_some'.mp hmem with ⟨row, hrow, hne⟩
      exact ⟨row, hrow, hne⟩
    · simp [hb] at hf
  · rintro ⟨row, hrow, hne⟩
    refine ⟨(i, true), ?_, by simp⟩
    rw [List.mem_enum_iff_getElem?]
    simp only [List.getElem?_map]
    rw [hrow]
    simp [hne]

theorem find_max_eq_some {data : List (List PyVal)} {k : Nat}
    (h : _find_max_nonempty_row data = some k) :
    (∃ row, data[k]? = some row ∧ is_not_empty row = true)
    ∧ ∀ j row, data[j]? = some row → is_not_empty row = true → j ≤ k := by
  unfold _find_max_nonempty_row at h
  by_cases hc : (data.map is_not_empty).count true ≠ 0
  · rw [if_pos hc] at h
    rcases nat_max?_eq_some_iff.mp h with ⟨hmem, hmax⟩
    refine ⟨mem_nonemptyIdx.mp hmem, ?_⟩
    intro j row hrow hne
    exact hmax j (mem_nonemptyIdx.mpr ⟨row, hrow, hne⟩)
  · rw [if_neg hc] at h
    cases h

theorem find_max_eq_none {data : List (List PyVal)} :
    _find_max_nonempty_row data = Option.none ↔ ∀ row ∈ data, is_not_empty row = false := by
  unfold _find_max_nonempty_row
  constructor
  · intro h row hrow
    by_contra hne
    rw [Bool.not_eq_false] at hne
    have hc : (data.map is_not_empty).count true ≠ 0 := by
      intro h0
      rw [List.count_eq_zero] at h0
      exact h0 (List.mem_map.mpr ⟨row, hrow, hne⟩)
    rw [if_pos hc] at h
    rcases List.mem_iff_getElem?.mp hrow with ⟨i, hi⟩
    have hmem : i ∈ nonemptyIdx data := mem_nonemptyIdx.mpr ⟨row, hi, hne⟩
    unfold nonemptyIdx at hmem
    rw [List.max?_eq_none_iff.mp h] at hmem
    cases hmem
  · intro hall
    rw [if_neg]
    push_neg
    rw [List.count_eq_zero]
    intro htrue
    rcases List.mem_map.mp htrue with ⟨row, hrow, hne⟩
    rw [hall row hrow] at hne
    cases hne

/-! ## C1 — column-label round trip -/

/-- C1: the claim asserts the round trip
`convert_cell_label_to_index (convert_cell_index_to_label row col) = (row, col)`
for all `row ≥ 1`, `col ≥ 1`, with remainder 0 borrowing to produce `Z`.
The code has no borrow: at `col = 26` it emits the letter `'@'`
(`chr(0 + 64)`), producing the label `"A@1"`, which its own parser then
rejects — while the intended label `"Z1"` parses back to column 26.  This
theorem evaluates the code at that failing input. -/
theorem roundtrip_fails_at_column_26 :
    convert_cell_index_to_label 1 26 = .ok "A@1"
    ∧ convert_cell_label_to_index (.str "A@1") = .error "Unable to parse user-provided label"
    ∧ convert_cell_label_to_index (.str "Z1") = .ok (1, 26)
    ∧ convert_cell_index_to_label 1 1 = .ok "A1"
    ∧ convert_cell_index_to_label 100 27 = .ok "AA100"
    ∧ convert_cell_index_to_label 7 200 = .ok "GR7" := by
  refine ⟨?_, by rfl, by rfl, ?_, ?_, ?_⟩ <;>
    · rw [convert_cell_index_to_label]
      norm_num [NUMBER_OF_LETTERS_IN_ALPHABET, ASCII_CHAR_OFFSET]
      rw [_get_column_letter.eq_def]
      norm_num [NUMBER_OF_LETTERS_IN_ALPHABET, ASCII_CHAR_OFFSET]
      try rw [_get_column_letter.eq_def]
      decide

/-! ## C6 — temporal round trip through the serial-day encoding -/

/-- C6: dates round-trip through the serial-day encoding with epoch
1899-12-30 as day 0.  The serial number of 2016-01-01 is 42370; decoding
it under the `DATE` format yields `date(2016, 1, 1)`; encoding any date
for upload renders its canonical `YYYY-MM-DD` text (so `date(2016, 1, 1)`
encodes to `"2016-01-01"`); the `nan` sentinel encodes to `None`. -/
theorem temporal_serial_roundtrip :
    serialOfDate 2016 1 1 = 42370
    ∧ decodeCell ⟨some (.numberVal 42370), some "DATE"⟩ = .ok (.date 2016 1 1)
    ∧ (∀ y m d, _convert_nan_and_datelike_values [[.date y m d]] = [[.str (dateStr y m d)]])
    ∧ dateStr 2016 1 1 = "2016-01-01"
    ∧ _convert_nan_and_datelike_values [[.nan]] = [[PyVal.none]] := by
  refine ⟨by decide, by rfl, ?_, by rfl, by rfl⟩
  intro y m d
  rfl

theorem isEmpty_false_of_ne {s : String} (h : s ≠ "") : s.isEmpty = false := by
  cases he : s.isEmpty
  · rfl
  · exact absurd ((String.isEmpty_iff s).mp he) h

/-! ## C2 — the ValueError / TypeError asymmetry in cell decoding -/

/-- C2 counterexample: the claim offers "a boolean under a numeric format"
as a type-mismatch failure that raises a fatal error; in the code
`float(True)` succeeds and the cell decodes to `1.0` without any error. -/
theorem bool_under_number_format_decodes :
    decodeCell ⟨some (.boolVal true), some "NUMBER"⟩ = .ok (.float 1)
    ∧ (Except.ok (PyVal.float 1) : Except PyErr PyVal)
        ≠ .error (.typeError (typeMismatchMsg (.bool true) (some "NUMBER"))) := by
  exact ⟨by rfl, by simp⟩

/-- C2 amended: for every cell whose selected conversion applies, a
`ValueError` from the conversion is swallowed and the raw value returned
unconverted, while a `TypeError` becomes the fatal descriptive error
naming the offending value, the selected format and the value's runtime
type.  In this code the type-mismatch case arises when a date/time/
datetime display format meets a string value (not for a boolean under a
numeric format, which converts): a non-empty unparseable string under
`NUMBER` is returned raw, and any non-empty string under `DATE` raises
the descriptive mismatch error. -/
theorem decode_error_asymmetry :
    (∀ (c : Cell) (f : PyVal → Except PyErr PyVal),
      _TYPE_CONVERSIONS (selectedFormat c) = some f →
      pyTruthy (rawValue c) = true →
      (∀ m, f (rawValue c) = .error (.valueError m) → decodeCell c = .ok (rawValue c))
      ∧ (∀ m, f (rawValue c) = .error (.typeError m) →
          decodeCell c = .error (.typeError (typeMismatchMsg (rawValue c) (selectedFormat c)))))
    ∧ (∀ s : String, parseFloat s = Option.none → s ≠ "" →
        decodeCell ⟨some (.strVal s), some "NUMBER"⟩ = .ok (.str s))
    ∧ (∀ s : String, s ≠ "" →
        decodeCell ⟨some (.strVal s), some "DATE"⟩
          = .error (.typeError (typeMismatchMsg (.str s) (some "DATE")))) := by
  have core : ∀ (c : Cell) (f : PyVal → Except PyErr PyVal),
      _TYPE_CONVERSIONS (selectedFormat c) = some f →
      pyTruthy (rawValue c) = true →
      (∀ m, f (rawValue c) = .error (.valueError m) → decodeCell c = .ok (rawValue c))
      ∧ (∀ m, f (rawValue c) = .error (.typeError m) →
          decodeCell c = .error (.typeError (typeMismatchMsg (rawValue c) (selectedFormat c)))) := by
    intro c f hf ht
    constructor
    · intro m hv
      simp only [decodeCell, hf, ht, hv, if_pos]
    · intro m hv
      simp only [decodeCell, hf, ht, hv, if_pos]
  refine ⟨core, ?_, ?_⟩
  · intro s hs hne
    have hf : _TYPE_CONVERSIONS (selectedFormat ⟨some (.strVal s), some "NUMBER"⟩)
        = some py_float := rfl
    have ht : pyTruthy (rawValue ⟨some (.strVal s), some "NUMBER"⟩) = true := by
      simp [rawValue, baseOf, pyTruthy, isEmpty_false_of_ne hne]
    refine (core _ _ hf ht).1 ("could not convert string to float: '" ++ s ++ "'") ?_
    show py_float (.str s) = _
    simp [py_float, hs]
  · intro s hne
    have hf : _TYPE_CONVERSIONS (selectedFormat ⟨some (.strVal s), some "DATE"⟩)
        = some conv_date := rfl
    have ht : pyTruthy (rawValue ⟨some (.strVal s), some "DATE"⟩) = true := by
      simp [rawValue, baseOf, pyTruthy, isEmpty_false_of_ne hne]
    exact (core _ _ hf ht).2 ("unsupported type for timedelta days component: " ++ pyTypeName (.str s)) rfl

/-- C2 witness: the asymmetry at concrete cells — the unparseable string
`"foo"` under `NUMBER` is returned raw, and under `DATE` it raises the
descriptive mismatch error. -/
theorem decode_error_asymmetry_witness :
    decodeCell ⟨some (.strVal "foo"), some "NUMBER"⟩ = .ok (.str "foo")
    ∧ decodeCell ⟨some (.strVal "foo"), some "DATE"⟩
        = .error (.typeError (typeMismatchMsg (.str "foo") (some "DATE"))) :=
  ⟨decode_error_asymmetry.2.1 "foo" (by rfl) (by decide),
   decode_error_asymmetry.2.2 "foo" (by decide)⟩

/-! ## C5 — conversion selection and falsy raw values -/

/-- C5 counterexample: the claim says an absent or *empty* raw value
always yields the absent sentinel; the code returns any falsy raw value
unchanged, so an empty string under `NUMBER` decodes to the empty string,
not to `None`. -/
theorem empty_string_not_sentinel :
    decodeCell ⟨some (.strVal ""), some "NUMBER"⟩ = .ok (.str "")
    ∧ PyVal.str "" ≠ PyVal.none := by
  exact ⟨by rfl, by simp⟩

/-- C5 amended: a present display-format tag takes precedence over the
coarse kind tag in selecting the conversion; an absent raw value yields
the absent sentinel; and no conversion is attempted on any falsy raw
value, which is returned unchanged (`None` for absent cells, but the
empty string, `False` or `0` stay themselves rather than becoming the
sentinel). -/
theorem conversion_selection :
    (∀ (ev : Option EffVal) (t : String), selectedFormat ⟨ev, some t⟩ = some t)
    ∧ (∀ ev : Option EffVal, selectedFormat ⟨ev, Option.none⟩ = (baseOf ev).1)
    ∧ (∀ (nf : Option String) (f : PyVal → Except PyErr PyVal),
        _TYPE_CONVERSIONS (selectedFormat ⟨Option.none, nf⟩) = some f →
        decodeCell ⟨Option.none, nf⟩ = .ok PyVal.none)
    ∧ (∀ (c : Cell) (f : PyVal → Except PyErr PyVal),
        _TYPE_CONVERSIONS (selectedFormat c) = some f →
        pyTruthy (rawValue c) = false →
        decodeCell c = .ok (rawValue c)) := by
  have falsy : ∀ (c : Cell) (f : PyVal → Except PyErr PyVal),
      _TYPE_CONVERSIONS (selectedFormat c) = some f →
      pyTruthy (rawValue c) = false →
      decodeCell c = .ok (rawValue c) := by
    intro c f hf ht
    simp only [decodeCell, hf, ht]
    rfl
  refine ⟨fun ev t => rfl, fun ev => rfl, ?_, falsy⟩
  intro nf f hf
  exact falsy ⟨Option.none, nf⟩ f hf rfl

/-- C5 witness: an absent cell under `DATE` yields the sentinel, and a
falsy boolean under `NUMBER` is returned unchanged without conversion. -/
theorem conversion_selection_witness :
    selectedFormat ⟨some (.boolVal true), some "DATE"⟩ = some "DATE"
    ∧ decodeCell ⟨Option.none, some "DATE"⟩ = .ok PyVal.none
    ∧ decodeCell ⟨some (.boolVal false), some "NUMBER"⟩ = .ok (.bool false) :=
  ⟨conversion_selection.1 (some (.boolVal true)) "DATE",
   conversion_selection.2.2.1 (some "DATE") conv_date (by rfl),
   conversion_selection.2.2.2 ⟨some (.boolVal false), some "NUMBER"⟩ py_float (by rfl) (by rfl)⟩

/-! ## C3 — trailing-empty trimming keeps interior blank rows -/

theorem fetch_list_shape {processed : List (List PyVal)} {k : Nat} (hdrs : Bool)
    (h : _find_max_nonempty_row processed = some k) :
    fetchFromProcessed processed hdrs .list
      = .listPair (fetchCore (normalizeRows processed k) hdrs).1
          (fetchCore (normalizeRows processed k) hdrs).2 := by
  simp only [fetchFromProcessed, h]

/-- C3: normalization keeps exactly the rows up to the last row with a
non-absent value — that row is non-empty, everything past it is empty,
and (for `headers=False`, `fmt='list'`) the output has one row per input
row up to that index, with fully-empty interior rows preserved in place
as rows of `None`s; when no row has any value, each of the three formats
returns its empty result. -/
theorem trailing_empty_rows_trimmed :
    (∀ (processed : List (List PyVal)) (k : Nat),
        _find_max_nonempty_row processed = some k →
        (∃ row, processed[k]? = some row ∧ is_not_empty row = true)
        ∧ (∀ j row, k < j → processed[j]? = some row → is_not_empty row = false)
        ∧ (∀ hs rows, fetchFromProcessed processed false .list = .listPair hs rows →
            rows.length = k + 1
            ∧ ∀ i row, i ≤ k → processed[i]? = some row →
                rows[i]? = some (_resize_row (_remove_trailing_nones row) hs.length)))
    ∧ (∀ (processed : List (List PyVal)) (hdrs : Bool),
        (∀ row ∈ processed, is_not_empty row = false) →
        fetchFromProcessed processed hdrs .df = .df [] []
        ∧ fetchFromProcessed processed hdrs .dict = .dicts []
        ∧ fetchFromProcessed processed hdrs .list = .listPair [] []) := by
  constructor
  · intro processed k h
    obtain ⟨⟨row0, hrow0, hne0⟩, hmax⟩ := find_max_eq_some h
    have hk : k < processed.length := (List.getElem?_eq_some_iff.mp hrow0).1
    refine ⟨⟨row0, hrow0, hne0⟩, ?_, ?_⟩
    · intro j row hkj hrow
      by_contra hne
      rw [Bool.not_eq_false] at hne
      exact absurd (hmax j row hrow hne) (by omega)
    · intro hs rows hEq
      rw [fetch_list_shape false h] at hEq
      rcases hEq with ⟨⟩
      constructor
      · simp only [fetchCore, normalizeRows, List.length_map, List.length_take]
        omega
      · intro i row hik hrow
        simp only [fetchCore, normalizeRows, List.getElem?_map, List.getElem?_take]
        rw [if_pos (by omega), hrow]
        simp
  · intro processed hdrs hall
    have h : _find_max_nonempty_row processed = Option.none := find_max_eq_none.mpr hall
    refine ⟨?_, ?_, ?_⟩ <;> simp [fetchFromProcessed, h]

/-- C3 witness: on six rows whose last two are empty, the last populated
index is 3 and the interior blank rows survive; all-empty input yields
the empty DataFrame. -/
theorem trailing_empty_rows_trimmed_witness :
    (∃ row,
      ([[PyVal.int 1], [PyVal.none, PyVal.none], [], [PyVal.str "x"], [PyVal.none], []]
        : List (List PyVal))[3]? = some row ∧ is_not_empty row = true)
    ∧ fetchFromProcessed [[PyVal.none], []] true .df = .df [] [] :=
  ⟨(trailing_empty_rows_trimmed.1
      [[PyVal.int 1], [PyVal.none, PyVal.none], [], [PyVal.str "x"], [PyVal.none], []]
      3 (by rfl)).1,
   (trailing_empty_rows_trimmed.2 [[PyVal.none], []] true (by decide)).1⟩

/-! ## C4 — uniform row width after normalization -/

/-- C4: `_resize_row` yields exactly the requested width, truncating the
tail of longer rows and right-padding shorter (including empty) rows
with `None`s; every data row returned by `fetch_data` has exactly the
header row's length (the synthesized `range` headers of the widest-row
width when headers are not requested, whose length is that maximum). -/
theorem rows_uniform_width :
    (∀ (a : List PyVal) (n : Nat),
        (_resize_row a n).length = n
        ∧ (n ≤ a.length → _resize_row a n = a.take n)
        ∧ (a.length ≤ n → _resize_row a n = a ++ List.replicate (n - a.length) PyVal.none))
    ∧ (∀ (processed : List (List PyVal)) (hdrs : Bool) (hs : List PyVal)
          (rows : List (List PyVal)),
        fetchFromProcessed processed hdrs .list = .listPair hs rows →
        ∀ r ∈ rows, r.length = hs.length)
    ∧ (∀ stripped : List (List PyVal),
        ((fetchCore stripped false).1).length = (stripped.map List.length).foldl Nat.max 0)
    ∧ (∀ (h : List PyVal) (t : List (List PyVal)), (fetchCore (h :: t) true).1 = h) := by
  have hlen : ∀ (a : List PyVal) (n : Nat), (_resize_row a n).length = n := by
    intro a n
    unfold _resize_row
    split
    · simp only [List.length_take]
      omega
    · simp only [List.length_append, List.length_replicate]
      omega
  refine ⟨?_, ?_, ?_, ?_⟩
  · intro a n
    refine ⟨hlen a n, ?_, ?_⟩
    · intro hle
      unfold _resize_row
      split
      · rfl
      · have heq : a.length = n := by omega
        rw [heq]
        simp [List.take_of_length_le heq.le]
    · intro hle
      unfold _resize_row
      split
      · omega
      · rfl
  · intro processed hdrs hs rows hEq
    cases hfm : _find_max_nonempty_row processed with
    | none =>
        simp only [fetchFromProcessed, hfm] at hEq
        rcases hEq with ⟨⟩
        intro r hr
        cases hr
    | some k =>
        rw [fetch_list_shape hdrs hfm] at hEq
        rcases hEq with ⟨⟩
        cases hdrs with
        | true =>
            cases hS : normalizeRows processed k with
            | nil =>
                simp only [fetchCore, hS]
                intro r hr
                cases hr
            | cons hd tl =>
                simp only [fetchCore, hS]
                intro r hr
                rcases List.mem_map.mp hr with ⟨r0, _, rfl⟩
                exact hlen r0 hd.length
        | false =>
            simp only [fetchCore]
            intro r hr
            rcases List.mem_map.mp hr with ⟨r0, _, rfl⟩
            rw [hlen, List.length_map, List.length_range]
  · intro stripped
    simp only [fetchCore, List.length_map, List.length_range]
  · intro h t
    simp only [fetchCore]

/-- C4 witness: concrete resizing (`['foo', 5, 'bar']` truncated to 2,
`[]` padded to 3) and concrete width agreement of a fetched row with its
header row. -/
theorem rows_uniform_width_witness :
    _resize_row [PyVal.str "foo", PyVal.int 5, PyVal.str "bar"] 2
      = [PyVal.str "foo", PyVal.int 5, PyVal.str "bar"].take 2
    ∧ _resize_row [] 3 = [] ++ List.replicate 3 PyVal.none
    ∧ ([PyVal.int 1] : List PyVal).length = ([PyVal.str "a"] : List PyVal).length :=
  ⟨(rows_uniform_width.1 [PyVal.str "foo", PyVal.int 5, PyVal.str "bar"] 2).2.1 (by decide),
   (rows_uniform_width.1 [] 3).2.2 (by decide),
   rows_uniform_width.2.1 [[PyVal.str "a"], [PyVal.int 1, PyVal.int 2]] true
     [PyVal.str "a"] [[PyVal.int 1]] (by rfl) [PyVal.int 1] (by decide)⟩

/-! ## C7 — agreement of the three output shapes -/

theorem foldl_odInsert_append :
    ∀ (l acc : List (PyVal × PyVal)),
      (∀ q ∈ acc, ∀ p ∈ l, pyEq q.1 p.1 = false) →
      l.Pairwise (fun a b => pyEq a.1 b.1 = false) →
      l.foldl (fun d p => odInsert d p.1 p.2) acc = acc ++ l := by
  intro l
  induction l with
  | nil => intro acc _ _; simp
  | cons p l ih =>
      intro acc hdisj hpw
      rw [List.foldl_cons]
      have hnotin : acc.any (fun r => pyEq r.1 p.1) = false := by
        rw [List.any_eq_false]
        intro r hr
        simp [hdisj r hr p (List.mem_cons_self p l)]
      have hstep : odInsert acc p.1 p.2 = acc ++ [p] := by
        unfold odInsert
        rw [hnotin]
        simp
      rw [hstep, ih (acc ++ [p]) ?_ (List.Pairwise.of_cons hpw)]
      · simp
      · intro q hq r hr
        rcases List.mem_append.mp hq with hq | hq
        · exact hdisj q hq r (List.mem_cons_of_mem p hr)
        · rcases List.mem_singleton.mp hq with rfl
          exact (List.pairwise_cons.mp hpw).1 r hr

theorem pairwise_keys_zip :
    ∀ (hs r : List PyVal), hs.Pairwise (fun a b => pyEq a b = false) →
      (hs.zip r).Pairwise (fun p q => pyEq p.1 q.1 = false) := by
  intro hs
  induction hs with
  | nil => intro r _; simp
  | cons a hs ih =>
      intro r hpw
      cases r with
      | nil => simp
      | cons b r =>
          rw [List.zip_cons_cons, List.pairwise_cons]
          refine ⟨?_, ih r (List.Pairwise.of_cons hpw)⟩
          intro q hq
          exact (List.pairwise_cons.mp hpw).1 q.1 (List.of_mem_zip hq).1

theorem odOf_zip_eq {hs : List PyVal} (r : List PyVal)
    (h : hs.Pairwise (fun a b => pyEq a b = false)) :
    orderedDictOfPairs (hs.zip r) = hs.zip r := by
  unfold orderedDictOfPairs
  rw [foldl_odInsert_append (hs.zip r) [] (by simp) (pairwise_keys_zip hs r h)]
  simp

/-- C7 counterexample: with a duplicated header name the `fmt='dict'`
shape collapses the two columns into one `OrderedDict` entry (keeping the
later value), so it does not present the same headers and cell values as
the `fmt='list'` shape of the same input. -/
theorem formats_disagree_on_duplicate_headers :
    fetchFromProcessed [[.str "a", .str "a"], [.int 1, .int 2]] true .list
      = .listPair [PyVal.str "a", PyVal.str "a"] [[PyVal.int 1, PyVal.int 2]]
    ∧ fetchFromProcessed [[.str "a", .str "a"], [.int 1, .int 2]] true .dict
      = .dicts [[(PyVal.str "a", PyVal.int 2)]]
    ∧ [[(PyVal.str "a", PyVal.int 2)]]
        ≠ [[PyVal.int 1, PyVal.int 2]].map
            (fun r => [PyVal.str "a", PyVal.str "a"].zip r) :=
  ⟨by rfl, by rfl, by decide⟩

/-- C7 amended: the three shapes are derived from one normalized
intermediate and agree on content whenever the header names are pairwise
distinct (under Python `==`): the DataFrame holds exactly the `list`
shape's headers and rows, and each `dict` row is the headers zipped with
the corresponding row.  With duplicated header names the `dict` shape
collapses columns (see the counterexample); the `df` and `list` shapes
agree unconditionally. -/
theorem formats_agree :
    ∀ (processed : List (List PyVal)) (hdrs : Bool) (hs : List PyVal)
      (rows : List (List PyVal)),
      fetchFromProcessed processed hdrs .list = .listPair hs rows →
      fetchFromProcessed processed hdrs .df = .df hs rows
      ∧ (hs.Pairwise (fun a b => pyEq a b = false) →
          fetchFromProcessed processed hdrs .dict
            = .dicts (rows.map (fun r => hs.zip r))) := by
  intro processed hdrs hs rows hEq
  cases hfm : _find_max_nonempty_row processed with
  | none =>
      simp only [fetchFromProcessed, hfm] at hEq ⊢
      rcases hEq with ⟨⟩
      exact ⟨rfl, fun _ => rfl⟩
  | some k =>
      rw [fetch_list_shape hdrs hfm] at hEq
      rcases hEq with ⟨⟩
      constructor
      · simp only [fetchFromProcessed, hfm]
      · intro hdist
        simp only [fetchFromProcessed, hfm]
        congr 1
        apply List.map_congr_left
        intro r _
        exact odOf_zip_eq r hdist

/-- C7 witness: with distinct headers the DataFrame and dict shapes agree
with the list shape on a concrete table. -/
theorem formats_agree_witness :
    fetchFromProcessed [[.str "a", .str "b"], [.int 1, .int 2]] true .df
      = .df [PyVal.str "a", PyVal.str "b"] [[PyVal.int 1, PyVal.int 2]]
    ∧ fetchFromProcessed [[.str "a", .str "b"], [.int 1, .int 2]] true .dict
      = .dicts [[(PyVal.str "a", PyVal.int 1), (PyVal.str "b", PyVal.int 2)]] :=
  have h := formats_agree [[.str "a", .str "b"], [.int 1, .int 2]] true
    [PyVal.str "a", PyVal.str "b"] [[PyVal.int 1, PyVal.int 2]] (by rfl)
  ⟨h.1, (h.2 (by decide)).trans (by rfl)⟩

/-! ## C8 — egest of a sequence of mappings -/

theorem mapE_ok {α β : Type} (f : α → Except PyErr β) (g : α → β) :
    ∀ l : List α, (∀ x ∈ l, f x = .ok (g x)) → mapE f l = .ok (l.map g) := by
  intro l
  induction l with
  | nil => intro _; rfl
  | cons a l ih =>
      intro h
      unfold mapE
      rw [h a (List.mem_cons_self a l), ih (fun x hx => h x (List.mem_cons_of_mem a hx))]
      rfl

/-- The row produced by the mapping branch of `_make_list_of_lists` for
one sequence element, used to state `egest_mapping_sequence`. -/
def egestRowOf (keys : List PyVal) : EgestDatum → EgestDatum
  | .mapping m => .listD (keys.map (fun k => dictGetD m k))
  | it => it

/-- C8: for a non-empty sequence of mappings, the header block is the
single row of the first mapping's keys in insertion order, and every data
row's values are fetched from its mapping by those same keys (`row[key]`,
not positionally), so all rows align to the first row's key order however
the individual mappings order their own keys. -/
theorem egest_mapping_sequence :
    ∀ (m0 : List (PyVal × PyVal)) (ms : List (List (PyVal × PyVal))) (isL idx : Bool),
      (∀ m ∈ m0 :: ms, ∀ k ∈ keysOf m0, (m.find? (fun p => pyEq p.1 k)).isSome = true) →
      _make_list_of_lists (.seq isL ((m0 :: ms).map .mapping)) idx
        = .ok ([keysOf m0],
            (m0 :: ms).map (fun m =>
              .listD ((keysOf m0).map (fun k => dictGetD m k)))) := by
  intro m0 ms isL idx hk
  have hget : ∀ m ∈ m0 :: ms, ∀ k ∈ keysOf m0,
      itemGetKey (.mapping m) k = .ok (dictGetD m k) := by
    intro m hm k hkm
    obtain ⟨p, hp⟩ := Option.isSome_iff_exists.mp (hk m hm k hkm)
    simp only [itemGetKey, dictGetD, hp]
    rfl
  have hrow : ∀ m ∈ m0 :: ms,
      mapE (fun key => itemGetKey (.mapping m) key) (keysOf m0)
        = .ok ((keysOf m0).map (fun k => dictGetD m k)) := by
    intro m hm
    exact mapE_ok _ _ _ (fun k hkm => hget m hm k hkm)
  have houter :
      mapE (fun row => do
          let row_values ← mapE (fun key => itemGetKey row key) (keysOf m0)
          pure (EgestDatum.listD row_values))
        ((m0 :: ms).map EgestDatum.mapping)
      = .ok (((m0 :: ms).map EgestDatum.mapping).map (egestRowOf (keysOf m0))) := by
    apply mapE_ok
    intro x hx
    rcases List.mem_map.mp hx with ⟨m, hm, rfl⟩
    rw [hrow m hm]
    rfl
  show _make_list_of_lists (.seq isL (.mapping m0 :: ms.map .mapping)) idx = _
  simp only [_make_list_of_lists]
  rw [show EgestDatum.mapping m0 :: List.map EgestDatum.mapping ms
      = (m0 :: ms).map EgestDatum.mapping from rfl, houter]
  simp only [List.map_map]
  rfl

/-- C8 witness: two mappings whose internal key orders differ produce rows
both aligned to the first mapping's key order. -/
theorem egest_mapping_sequence_witness :
    _make_list_of_lists
        (.seq true [.mapping [(.str "name", .str "bubbles"), (.str "age", .int 3)],
                    .mapping [(.str "age", .float (5 / 2)), (.str "name", .str "fishsticks")]])
        false
      = .ok ([[PyVal.str "name", PyVal.str "age"]],
          [.listD [PyVal.str "bubbles", PyVal.int 3],
           .listD [PyVal.str "fishsticks", PyVal.float (5 / 2)]]) :=
  (egest_mapping_sequence [(.str "name", .str "bubbles"), (.str "age", .int 3)]
      [[(.str "age", .float (5 / 2)), (.str "name", .str "fishsticks")]]
      true false (by decide)).trans (by rfl)

/-! ## C9 — validation errors of the label codec -/

/-- C9 counterexample: the claim says every label whose letters-then-digits
pattern does not match the *entire* input is rejected, but `re.match`
only anchors at the start: `"A1x"` parses as `(1, 1)` with the trailing
`"x"` ignored, instead of raising. -/
theorem label_with_trailing_garbage_parses :
    convert_cell_label_to_index (.str "A1x") = .ok (1, 1)
    ∧ (Except.ok ((1 : Int), (1 : Nat)) : Except String (Int × Nat))
        ≠ .error "Unable to parse user-provided label" := by
  refine ⟨by rfl, by simp⟩

theorem char_toNat_ofNat {n : Nat} (h : n.isValidChar) : (Char.ofNat n).toNat = n := by
  rw [Char.ofNat, dif_pos h]
  rfl

theorem isAsciiLetter_upperChar (c : Char) : isAsciiLetter (upperChar c) = isAsciiLetter c := by
  unfold upperChar
  by_cases h : 97 ≤ c.toNat ∧ c.toNat ≤ 122
  · rw [if_pos h]
    have hv : (Char.ofNat (c.toNat - 32)).toNat = c.toNat - 32 :=
      char_toNat_ofNat (Or.inl (by omega))
    rw [Bool.eq_iff_iff]
    simp only [isAsciiLetter, hv, Bool.or_eq_true, Bool.and_eq_true, decide_eq_true_eq]
    omega
  · rw [if_neg h]

theorem isAsciiDigit_upperChar (c : Char) : isAsciiDigit (upperChar c) = isAsciiDigit c := by
  unfold upperChar
  by_cases h : 97 ≤ c.toNat ∧ c.toNat ≤ 122
  · rw [if_pos h]
    have hv : (Char.ofNat (c.toNat - 32)).toNat = c.toNat - 32 :=
      char_toNat_ofNat (Or.inl (by omega))
    rw [Bool.eq_iff_iff]
    simp only [isAsciiDigit, hv, Bool.and_eq_true, decide_eq_true_eq]
    omega
  · rw [if_neg h]

theorem upperChar_of_digit {c : Char} (h : isAsciiDigit c = true) : upperChar c = c := by
  unfold upperChar
  rw [if_neg]
  simp only [isAsciiDigit, Bool.and_eq_true, decide_eq_true_eq] at h
  omega

theorem letterVal_upperChar (c : Char) : letterVal (upperChar c) = letterVal c := by
  unfold upperChar letterVal
  by_cases h : 97 ≤ c.toNat ∧ c.toNat ≤ 122
  · rw [if_pos h]
    have hv : (Char.ofNat (c.toNat - 32)).toNat = c.toNat - 32 :=
      char_toNat_ofNat (Or.inl (by omega))
    rw [hv, if_neg (by omega), if_pos (by omega)]
  · rw [if_neg h]

theorem isEmpty_map {α β : Type} (f : α → β) (l : List α) :
    (l.map f).isEmpty = l.isEmpty := by
  cases l <;> rfl

/-- Parsing a label is invariant under ASCII upper-casing of the input:
the letter run, the digit run and the accumulated column value are all
unchanged. -/
theorem label_parse_upper_invariant (s : String) :
    convert_cell_label_to_index (.str (upperStr s))
      = convert_cell_label_to_index (.str s) := by
  simp only [convert_cell_label_to_index, upperStr]
  have h1 : (String.mk (s.toList.map upperChar)).toList = s.toList.map upperChar := rfl
  rw [h1, List.takeWhile_map, List.dropWhile_map, List.takeWhile_map,
    show isAsciiLetter ∘ upperChar = isAsciiLetter from funext isAsciiLetter_upperChar,
    show isAsciiDigit ∘ upperChar = isAsciiDigit from funext isAsciiDigit_upperChar,
    show (List.takeWhile isAsciiDigit (s.toList.dropWhile isAsciiLetter)).map upperChar
        = List.takeWhile isAsciiDigit (s.toList.dropWhile isAsciiLetter) from
      (List.map_congr_left
          (fun c hc => upperChar_of_digit (List.mem_takeWhile_imp hc))).trans
        (List.map_id _),
    isEmpty_map, List.foldl_map,
    show (fun (col : Nat) (c : Char) =>
          col * NUMBER_OF_LETTERS_IN_ALPHABET + letterVal (upperChar c))
        = (fun (col : Nat) (c : Char) =>
          col * NUMBER_OF_LETTERS_IN_ALPHABET + letterVal c) from
      funext fun col => funext fun c => by rw [letterVal_upperChar]]

/-- C9 amended: `convert_cell_index_to_label` raises for every `row < 1`
or `col < 1`; `convert_cell_label_to_index` raises for every non-string
input and for every string that does not *begin* with letters followed
by digits (first digit non-zero) — e.g. `"1"` and `"AA"` — matching the
letters case-insensitively (`"gr7"` parses like `"GR7"`); a valid prefix
followed by extra characters is accepted with the extra characters
ignored rather than rejected. -/
theorem label_codec_validation :
    (∀ row col : Int, row < 1 ∨ col < 1 →
        convert_cell_index_to_label row col = .error "Row and column values must be >= 1")
    ∧ (∀ v : PyVal, (∀ s, v ≠ .str s) →
        convert_cell_label_to_index v = .error "Input must be a string")
    ∧ convert_cell_label_to_index (.str "1") = .error "Unable to parse user-provided label"
    ∧ convert_cell_label_to_index (.str "AA") = .error "Unable to parse user-provided label"
    ∧ convert_cell_label_to_index (.str "gr7") = .ok (7, 200)
    ∧ (∀ s : String, convert_cell_label_to_index (.str (upperStr s))
        = convert_cell_label_to_index (.str s)) := by
  refine ⟨?_, ?_, by rfl, by rfl, by rfl, label_parse_upper_invariant⟩
  · intro row col h
    simp only [convert_cell_index_to_label, if_pos h]
  · intro v hv
    cases v with
    | str s => exact absurd rfl (hv s)
    | _ => rfl

/-- C9 witness: the rejections at concrete inputs `(0, 5)` and the
integer `1`. -/
theorem label_codec_validation_witness :
    convert_cell_index_to_label 0 5 = .error "Row and column values must be >= 1"
    ∧ convert_cell_label_to_index (.int 1) = .error "Input must be a string" :=
  ⟨label_codec_validation.1 0 5 (Or.inl (by norm_num)),
   label_codec_validation.2.1 (.int 1) (fun s h => by cases h)⟩

/-! ## C10 — egest probes `data[0]` before finishing shape dispatch -/

/-- C10: `_make_list_of_lists` inspects `data[0]` while testing the
sequence-of-mappings branch, so an empty sequence fails with the
out-of-bounds `IndexError`, never reaching the descriptive
unsupported-shape `ValueError`; the descriptive error is raised only for
non-empty (or non-sequence) inputs of unrecognized shape, such as a
sequence starting with a scalar or a non-list sequence of lists. -/
theorem egest_empty_sequence_index_error :
    (∀ (b idx : Bool), _make_list_of_lists (.seq b []) idx
        = .error (.indexError "list index out of range"))
    ∧ (∀ (data : EgestData) (idx : Bool) (m : String),
        _make_list_of_lists data idx = .error (.valueError m) →
        ∀ b, data ≠ .seq b [])
    ∧ (∀ (b idx : Bool) (v : PyVal) (rest : List EgestDatum),
        _make_list_of_lists (.seq b (.scalar v :: rest)) idx
          = .error (.valueError shapeErrorMsg))
    ∧ (∀ (idx : Bool) (l : List PyVal) (rest : List EgestDatum),
        _make_list_of_lists (.seq false (.listD l :: rest)) idx
          = .error (.valueError shapeErrorMsg)) := by
  refine ⟨fun b idx => rfl, ?_, fun b idx v rest => rfl, fun idx l rest => rfl⟩
  intro data idx m h b heq
  subst heq
  simp only [_make_list_of_lists] at h
  cases h

/-- C10 witness: the empty list input fails with the `IndexError`, and the
descriptive-error implication applied to a concrete unrecognized shape. -/
theorem egest_empty_sequence_index_error_witness :
    _make_list_of_lists (.seq true []) false
        = .error (.indexError "list index out of range")
    ∧ EgestData.scalarData (.int 3) ≠ .seq true [] :=
  ⟨egest_empty_sequence_index_error.1 true false,
   egest_empty_sequence_index_error.2.1 (.scalarData (.int 3)) false shapeErrorMsg (by rfl) true⟩

end Datasheets
